import Mathlib

/-!
Shallow embedding of the table orchestration core of the
`ayasofyazilim-ui` repository: the `DataTable` engine
(`src/src/molecules/tables/index.tsx`) and the `TanstackTable` engine
(`src/unnamed/part_000`). Rows are association lists of field/value
pairs; JavaScript objects built by property assignment are modelled by
`objSet`/`objLookup`; React state effects become explicit state-passing
functions.
-/

namespace AyaTables

/-- A JavaScript primitive value stored in a table row field. -/
inductive Value where
  | str : String → Value
  | num : Int → Value
  | boolean : Bool → Value
  | null : Value
deriving DecidableEq, Repr

/-- A field (property) name of a row object. -/
abbrev FieldId := String

/-- A table row: a JavaScript object, modelled as an association list of
field/value pairs with pairwise-distinct keys (as in a JS object). -/
abbrev RowData := List (FieldId × Value)

/-- The structurally empty placeholder row produced by the literal
object expression in the loading effect of `DataTable`. -/
def emptyRow : RowData := []

/-- Helper for `objSet`: overwrite every remaining entry whose key is
`k` (a JS object holds each key once, so on well-formed objects this
touches at most the entries already rewritten by `objSet`). -/
def objReplace {β : Type} : List (String × β) → String → β →
    List (String × β)
  | [], _, _ => []
  | p :: rest, k, v =>
      (if p.1 = k then (k, v) else p) :: objReplace rest k v

/-- JavaScript object property assignment `obj[k] = v` (also the spread
`\x7b...obj, [k]: v\x7d`): when the key is present it is overwritten in
place, otherwise the pair is appended at the end. -/
def objSet {β : Type} : List (String × β) → String → β →
    List (String × β)
  | [], k, v => [(k, v)]
  | p :: rest, k, v =>
      if p.1 = k then (k, v) :: objReplace rest k v
      else p :: objSet rest k v

/-- JavaScript object property read `obj[k]`: the value of the first
entry with key `k`, if any. -/
def objLookup {β : Type} : List (String × β) → String → Option β
  | [], _ => none
  | p :: rest, k => if p.1 = k then some p.2 else objLookup rest k

theorem objLookup_objReplace_ne {β : Type} (obj : List (String × β))
    (k key : String) (v : β) (h : key ≠ k) :
    objLookup (objReplace obj k v) key = objLookup obj key := by
  induction obj with
  | nil => rfl
  | cons p rest ih =>
      by_cases hp : p.1 = k
      · have hk : ¬k = key := fun hkk => h hkk.symm
        have hpkey : ¬p.1 = key := by rw [hp]; exact hk
        simp [objReplace, objLookup, hp, hk, hpkey, ih]
      · by_cases hpkey : p.1 = key
        · simp only [objReplace, objLookup, if_neg hp, if_pos hpkey]
        · simp only [objReplace, objLookup, if_neg hp, if_neg hpkey]
          exact ih

/-- Reading back a property after a JS object assignment: the assigned
key yields the new value, every other key is untouched. -/
theorem objLookup_objSet {β : Type} (obj : List (String × β))
    (k key : String) (v : β) :
    objLookup (objSet obj k v) key =
      if key = k then some v else objLookup obj key := by
  induction obj with
  | nil =>
      by_cases hk : key = k
      · subst hk; simp [objSet, objLookup]
      · have hkk : ¬k = key := fun h => hk h.symm
        simp [objSet, objLookup, hk, hkk]
  | cons p rest ih =>
      by_cases hp : p.1 = k
      · by_cases hk : key = k
        · subst hk; simp [objSet, objLookup, hp]
        · have hkk : ¬k = key := fun h => hk h.symm
          have hpkey : ¬p.1 = key := by rw [hp]; exact hkk
          simp only [objSet, objLookup, if_pos hp, if_neg hkk,
            if_neg hpkey, if_neg hk]
          exact objLookup_objReplace_ne rest k key v hk
      · by_cases hk : key = k
        · subst hk
          have hpkey : ¬p.1 = key := hp
          simp [objSet, objLookup, hp, hpkey, ih]
        · by_cases hpkey : p.1 = key
          · simp [objSet, objLookup, hp, hpkey, hk]
          · simp [objSet, objLookup, hp, hpkey, hk, ih]

/-! ### Loading projection (`DataTable`, index.tsx lines 102-108 and 127-132)

The loading effect replaces the table data with `Array(6).fill(\x7b\x7d)`
and the column list with copies whose `cell` renderer is `SkeletonCell`.
-/

/-- A cell renderer of a column definition: either the skeleton renderer
substituted while loading, or some caller-supplied renderer (tagged). -/
inductive CellRenderer where
  | skeleton : CellRenderer
  | custom : Nat → CellRenderer
deriving DecidableEq, Repr

/-- A column definition as far as the orchestration core inspects it:
an identifier and a cell renderer. -/
structure ColumnDef where
  id : String
  cell : CellRenderer
deriving DecidableEq, Repr

/-- index.tsx lines 102-108: the data half of the loading projection.
`setTableData(Array(6).fill(\x7b\x7d))` while loading, `setTableData(data)`
otherwise. -/
def loadingSnapshot (isLoading : Bool) (data : List RowData) :
    List RowData :=
  if isLoading then List.replicate 6 emptyRow else data

/-- index.tsx lines 127-132: the column half of the loading projection.
While loading every column's `cell` becomes `SkeletonCell`; otherwise the
columns pass through. -/
def applyLoadingColumns (isLoading : Bool) (columns : List ColumnDef) :
    List ColumnDef :=
  if isLoading then columns.map (fun column => { column with cell := .skeleton })
  else columns

/-- C5: while loading the effective data is exactly 6 structurally empty
placeholder rows, independent of the real data, and every column's cell
renderer becomes the skeleton renderer (ids kept); when not loading both
data and columns pass through unchanged (the projection is pure, so the
caller's data is never mutated). -/
theorem loading_projection_spec (d d' : List RowData)
    (cols : List ColumnDef) :
    loadingSnapshot true d = List.replicate 6 emptyRow
    ∧ loadingSnapshot true d = loadingSnapshot true d'
    ∧ (applyLoadingColumns true cols).map ColumnDef.cell =
        List.replicate cols.length CellRenderer.skeleton
    ∧ (applyLoadingColumns true cols).map ColumnDef.id =
        cols.map ColumnDef.id
    ∧ loadingSnapshot false d = d
    ∧ applyLoadingColumns false cols = cols := by
  refine ⟨rfl, rfl, ?_, ?_, rfl, rfl⟩
  · simp only [applyLoadingColumns, if_true, List.map_map]
    induction cols with
    | nil => rfl
    | cons c rest ih =>
        simp only [List.map_cons, List.length_cons, List.replicate_succ]
        simpa using ih
  · simp [applyLoadingColumns]

/-! ### Row selection setter (`DataTable`, index.tsx lines 145-148) -/

/-- The row-selection state: a JS object mapping row keys to `true`
(positive selection). -/
abbrev RowSelection := List (String × Bool)

/-- index.tsx lines 145-148: `onRowSelectionChange` returns early while
loading, otherwise forwards the requested selection to the state setter.
The result is the selection state after the call. -/
def onRowSelectionChange (isLoading : Bool)
    (current requested : RowSelection) : RowSelection :=
  if isLoading then current else requested

/-- C8: while a load is in flight the selection setter is a no-op (the
state after the call equals the state before, and being a total function
it raises no error); when not loading it applies the requested
selection. -/
theorem selection_setter_noop_while_loading
    (current requested : RowSelection) :
    onRowSelectionChange true current requested = current
    ∧ onRowSelectionChange false current requested = requested :=
  ⟨rfl, rfl⟩

/-! ### Row mutation hooks (`DataTable`, index.tsx lines 154-172)

`removeRow` filters the data by index and resets the row selection;
`updateData` maps over the data, spreading the new field into the row at
the given index.
-/

/-- JS `array.filter((_row, index) => index !== target)` with the index
counter starting at `start`. -/
def jsFilterIdxNeFrom {α : Type} (target : Nat) : Nat → List α → List α
  | _, [] => []
  | start, x :: xs =>
      if start ≠ target then x :: jsFilterIdxNeFrom target (start + 1) xs
      else jsFilterIdxNeFrom target (start + 1) xs

/-- JS `array.filter((_row, index) => index !== target)`. -/
def jsFilterIdxNe {α : Type} (l : List α) (target : Nat) : List α :=
  jsFilterIdxNeFrom target 0 l

/-- JS `array.map((row, index) => f(index, row))` with the index counter
starting at `start`. -/
def jsMapIdxFrom {α : Type} (f : Nat → α → α) : Nat → List α → List α
  | _, [] => []
  | start, x :: xs => f start x :: jsMapIdxFrom f (start + 1) xs

/-- JS `array.map((row, index) => f(index, row))`. -/
def jsMapIdx {α : Type} (f : Nat → α → α) (l : List α) : List α :=
  jsMapIdxFrom f 0 l

theorem jsFilterIdxNeFrom_eq_of_lt {α : Type} (l : List α) :
    ∀ t s, t < s → jsFilterIdxNeFrom t s l = l := by
  induction l with
  | nil => intro t s _; rfl
  | cons x xs ih =>
      intro t s h
      simp only [jsFilterIdxNeFrom, if_pos (by omega : s ≠ t)]
      rw [ih t (s + 1) (by omega)]

theorem jsFilterIdxNeFrom_eq_eraseIdx {α : Type} (l : List α) :
    ∀ t s, jsFilterIdxNeFrom (t + s) s l = l.eraseIdx t := by
  induction l with
  | nil => intro t s; cases t <;> rfl
  | cons x xs ih =>
      intro t s
      cases t with
      | zero =>
          simp only [Nat.zero_add, jsFilterIdxNeFrom,
            if_neg (by omega : ¬s ≠ s), List.eraseIdx]
          exact jsFilterIdxNeFrom_eq_of_lt xs s (s + 1) (by omega)
      | succ t' =>
          simp only [jsFilterIdxNeFrom,
            if_pos (by omega : s ≠ t' + 1 + s), List.eraseIdx]
          have harg : t' + 1 + s = t' + (s + 1) := by omega
          rw [harg, ih t' (s + 1)]

/-- The index-filtering in `removeRow` removes exactly the row at the
target index, keeping the order of the remaining rows. -/
theorem jsFilterIdxNe_eq_eraseIdx {α : Type} (l : List α) (t : Nat) :
    jsFilterIdxNe l t = l.eraseIdx t := by
  have h := jsFilterIdxNeFrom_eq_eraseIdx l t 0
  simpa [jsFilterIdxNe] using h

theorem length_jsMapIdxFrom {α : Type} (f : Nat → α → α) (l : List α) :
    ∀ s, (jsMapIdxFrom f s l).length = l.length := by
  induction l with
  | nil => intro s; rfl
  | cons x xs ih =>
      intro s
      simp only [jsMapIdxFrom, List.length_cons, ih (s + 1)]

theorem getElem?_jsMapIdxFrom {α : Type} (f : Nat → α → α) (l : List α) :
    ∀ s j, (jsMapIdxFrom f s l)[j]? = (l[j]?).map (f (s + j)) := by
  induction l with
  | nil => intro s j; rfl
  | cons x xs ih =>
      intro s j
      cases j with
      | zero => simp [jsMapIdxFrom]
      | succ j' =>
          simp only [jsMapIdxFrom, List.getElem?_cons_succ, ih (s + 1) j']
          have harg : s + 1 + j' = s + (j' + 1) := by omega
          rw [harg]

theorem getElem?_jsMapIdx {α : Type} (f : Nat → α → α) (l : List α)
    (j : Nat) : (jsMapIdx f l)[j]? = (l[j]?).map (f j) := by
  have h := getElem?_jsMapIdxFrom f l 0 j
  simpa [jsMapIdx] using h

/-- The two `DataTable` state slots the row-mutation hooks touch: the
internal data snapshot and the row selection. -/
structure DataTableState where
  tableData : List RowData
  rowSelection : RowSelection
deriving DecidableEq, Repr

/-- index.tsx lines 155-158: the `removeRow` meta hook.
`setTableData((old) => old.filter((_row, index) => index !== rowIndex))`
followed by `table.resetRowSelection()`; `DataTable` supplies no initial
selection state, so the external table model resets the selection to the
empty object. -/
def removeRow (s : DataTableState) (rowIndex : Nat) : DataTableState :=
  { tableData := jsFilterIdxNe s.tableData rowIndex
    rowSelection := [] }

/-- index.tsx lines 159-171: the `updateData` meta hook.
`setTableData((old) => old.map((row, index) => index === rowIndex ?
\x7b...row, [columnId]: value\x7d : row))`; the row selection is not
touched. -/
def updateData (s : DataTableState) (rowIndex : Nat) (columnId : FieldId)
    (value : Value) : DataTableState :=
  { s with
      tableData :=
        jsMapIdx
          (fun index row =>
            if index = rowIndex then objSet row columnId value else row)
          s.tableData }

/-- C7: for a valid index, `removeRow` yields the old snapshot with
exactly the row at that index removed (order preserved), one row
shorter, and resets the row selection to empty. -/
theorem removeRow_spec (s : DataTableState) (rowIndex : Nat)
    (h : rowIndex < s.tableData.length) :
    (removeRow s rowIndex).tableData = s.tableData.eraseIdx rowIndex
    ∧ (removeRow s rowIndex).tableData.length = s.tableData.length - 1
    ∧ (removeRow s rowIndex).rowSelection = [] := by
  refine ⟨jsFilterIdxNe_eq_eraseIdx s.tableData rowIndex, ?_, rfl⟩
  have h1 := List.length_eraseIdx_add_one h
  simp only [removeRow, jsFilterIdxNe_eq_eraseIdx s.tableData rowIndex]
  omega

/-- A sample row used by concrete witnesses. -/
def sampleRow (n : Int) : RowData := [("id", Value.num n)]

theorem removeRow_spec_witness :
    (2 : Nat) < 5
    ∧ (removeRow
        ⟨[sampleRow 0, sampleRow 1, sampleRow 2, sampleRow 3, sampleRow 4],
          [("0", true)]⟩ 2).tableData =
        [sampleRow 0, sampleRow 1, sampleRow 3, sampleRow 4]
    ∧ (removeRow
        ⟨[sampleRow 0, sampleRow 1, sampleRow 2, sampleRow 3, sampleRow 4],
          [("0", true)]⟩ 2).tableData.length = 4
    ∧ (removeRow
        ⟨[sampleRow 0, sampleRow 1, sampleRow 2, sampleRow 3, sampleRow 4],
          [("0", true)]⟩ 2).rowSelection = [] := by
  have h := removeRow_spec
    ⟨[sampleRow 0, sampleRow 1, sampleRow 2, sampleRow 3, sampleRow 4],
      [("0", true)]⟩ 2 (by decide)
  refine ⟨by decide, ?_, ?_, h.2.2⟩
  · rw [h.1]; rfl
  · rw [h.2.1]; rfl

/-- C10: `updateData` keeps the snapshot length, changes no row other
than the one at the target index, rewrites exactly the addressed field
of that row to the new value (all its other fields kept), and — unlike
`removeRow` — leaves the row selection unchanged. -/
theorem updateData_spec (s : DataTableState) (rowIndex : Nat)
    (columnId : FieldId) (value : Value) :
    (updateData s rowIndex columnId value).tableData.length
        = s.tableData.length
    ∧ (∀ j, j ≠ rowIndex →
        (updateData s rowIndex columnId value).tableData[j]? =
          s.tableData[j]?)
    ∧ (∀ row, s.tableData[rowIndex]? = some row →
        (updateData s rowIndex columnId value).tableData[rowIndex]? =
          some (objSet row columnId value)
        ∧ objLookup (objSet row columnId value) columnId = some value
        ∧ (∀ g, g ≠ columnId →
            objLookup (objSet row columnId value) g = objLookup row g))
    ∧ (updateData s rowIndex columnId value).rowSelection =
        s.rowSelection := by
  refine ⟨?_, ?_, ?_, rfl⟩
  · simp only [updateData, jsMapIdx]
    exact length_jsMapIdxFrom _ s.tableData 0
  · intro j hj
    simp only [updateData, getElem?_jsMapIdx, if_neg hj]
    cases s.tableData[j]? <;> rfl
  · intro row hrow
    refine ⟨?_, ?_, ?_⟩
    · simp only [updateData, getElem?_jsMapIdx, hrow, Option.map_some]
      simp
    · rw [objLookup_objSet]
      simp
    · intro g hg
      rw [objLookup_objSet]
      simp [hg]

theorem updateData_spec_witness :
    (updateData
        ⟨[[("id", Value.num 1), ("name", Value.str "A")],
          [("id", Value.num 2)]], [("1", true)]⟩
        0 "name" (Value.str "Z")).tableData =
      [[("id", Value.num 1), ("name", Value.str "Z")],
        [("id", Value.num 2)]]
    ∧ objLookup
        (objSet [("id", Value.num 1), ("name", Value.str "A")] "name"
          (Value.str "Z")) "name" = some (Value.str "Z")
    ∧ objLookup
        (objSet [("id", Value.num 1), ("name", Value.str "A")] "name"
          (Value.str "Z")) "id" = some (Value.num 1)
    ∧ (updateData
        ⟨[[("id", Value.num 1), ("name", Value.str "A")],
          [("id", Value.num 2)]], [("1", true)]⟩
        0 "name" (Value.str "Z")).rowSelection = [("1", true)] := by
  have h := updateData_spec
    ⟨[[("id", Value.num 1), ("name", Value.str "A")],
      [("id", Value.num 2)]], [("1", true)]⟩
    0 "name" (Value.str "Z")
  have hfield := h.2.2.1 [("id", Value.num 1), ("name", Value.str "A")]
    (by rfl)
  refine ⟨by decide, hfield.2.1.trans (by decide), ?_, h.2.2.2⟩
  exact (hfield.2.2 "id" (by decide)).trans (by decide)

/-! ### Filter synchronization loop (`DataTable`, index.tsx lines 177-188)

The effect watches the committed filters and the page index, serializes
the filters into a payload object and invokes
`fetchRequest?.(pageIndex, filter)`.
-/

/-- A committed filter entry: `\x7bname, value, type\x7d` as stored in the
`filteredColumns` state. -/
structure ColumnFilter where
  name : String
  value : String
  type : String
deriving DecidableEq, Repr

/-- A value of the serialized filter payload: either the raw scalar or
the decomposed multi-select list. -/
inductive FilterValue where
  | scalar : String → FilterValue
  | listed : List String → FilterValue
deriving DecidableEq, Repr

/-- JS `string.split(sep)` for a one-character separator, on the
character list: every occurrence of the separator starts a new segment,
so adjacent separators produce empty segments and the empty input gives
one empty segment. -/
def splitCharList (sep : Char) : List Char → List (List Char)
  | [] => [[]]
  | c :: rest =>
      match splitCharList sep rest with
      | [] => [[c]]
      | g :: gs => if c = sep then [] :: g :: gs else (c :: g) :: gs

/-- JS `string.split(sep)` for a one-character separator. -/
def jsSplit (s : String) (sep : Char) : List String :=
  (splitCharList sep s.toList).map (fun cs => String.mk cs)

/-- index.tsx lines 180-184: the per-filter serialization inside the
fetch effect: `select-multiple` and `select-async` values are split on
the comma (`column.value.split(',')`) with falsy (empty) segments
dropped, every other type passes its raw value through. -/
def serializeFilterValue (column : ColumnFilter) : FilterValue :=
  if column.type = "select-multiple" ∨ column.type = "select-async" then
    FilterValue.listed ((jsSplit column.value ',').filter (fun i => i != ""))
  else FilterValue.scalar column.value

/-- The payload object handed to `fetchRequest`. -/
abbrev FilterColumnResult := List (String × FilterValue)

/-- index.tsx lines 178-185: `filteredColumns.forEach` writing
`filter[column.name] = ...` into an initially empty object. -/
def buildFilterPayload (filteredColumns : List ColumnFilter) :
    FilterColumnResult :=
  filteredColumns.foldl
    (fun filter column =>
      objSet filter column.name (serializeFilterValue column))
    []

/-- index.tsx line 187: the argument pair of the `fetchRequest`
invocation the effect performs whenever the page index or the committed
filters change. -/
def fetchRequestArgs (pageIndex : Nat)
    (filteredColumns : List ColumnFilter) : Nat × FilterColumnResult :=
  (pageIndex, buildFilterPayload filteredColumns)

theorem objLookup_payload_foldl_not_mem (cols : List ColumnFilter) :
    ∀ (acc : FilterColumnResult) (key : String),
      key ∉ cols.map ColumnFilter.name →
      objLookup
        (cols.foldl
          (fun filter column =>
            objSet filter column.name (serializeFilterValue column)) acc)
        key = objLookup acc key := by
  induction cols with
  | nil => intro acc key _; rfl
  | cons d rest ih =>
      intro acc key hkey
      simp only [List.map_cons, List.mem_cons, not_or] at hkey
      simp only [List.foldl_cons]
      rw [ih _ key hkey.2, objLookup_objSet, if_neg hkey.1]

theorem objLookup_payload_foldl_mem (cols : List ColumnFilter)
    (c : ColumnFilter) :
    ∀ acc : FilterColumnResult, c ∈ cols →
      (cols.map ColumnFilter.name).Nodup →
      objLookup
        (cols.foldl
          (fun filter column =>
            objSet filter column.name (serializeFilterValue column)) acc)
        c.name = some (serializeFilterValue c) := by
  induction cols with
  | nil => intro acc hmem _; cases hmem
  | cons d rest ih =>
      intro acc hmem hnodup
      simp only [List.map_cons, List.nodup_cons] at hnodup
      simp only [List.foldl_cons]
      rcases List.mem_cons.mp hmem with hcd | hcrest
      · subst hcd
        rw [objLookup_payload_foldl_not_mem rest _ c.name hnodup.1,
          objLookup_objSet, if_pos rfl]
      · exact ih _ hcrest hnodup.2

/-- C6: in the payload handed to `fetchRequest` together with the page
index, each committed filter's name maps to its value split on the comma
with empty segments dropped when the filter type is `select-multiple` or
`select-async`, and to the raw value unchanged for every other type. -/
theorem filter_payload_spec (filteredColumns : List ColumnFilter)
    (pageIndex : Nat) (c : ColumnFilter) (hmem : c ∈ filteredColumns)
    (hnodup : (filteredColumns.map ColumnFilter.name).Nodup) :
    objLookup (fetchRequestArgs pageIndex filteredColumns).2 c.name =
      some
        (if c.type = "select-multiple" ∨ c.type = "select-async" then
          FilterValue.listed
            ((jsSplit c.value ',').filter (fun i => i != ""))
        else FilterValue.scalar c.value)
    ∧ (fetchRequestArgs pageIndex filteredColumns).1 = pageIndex := by
  refine ⟨?_, rfl⟩
  have h := objLookup_payload_foldl_mem filteredColumns c [] hmem hnodup
  simpa [fetchRequestArgs, buildFilterPayload, serializeFilterValue]
    using h

theorem filter_payload_spec_witness :
    (⟨"status", "a,b,,c", "select-multiple"⟩ : ColumnFilter) ∈
      [(⟨"status", "a,b,,c", "select-multiple"⟩ : ColumnFilter),
        ⟨"q", "abc", "text"⟩]
    ∧ objLookup
        (fetchRequestArgs 0
          [⟨"status", "a,b,,c", "select-multiple"⟩,
            ⟨"q", "abc", "text"⟩]).2 "status" =
        some (FilterValue.listed ["a", "b", "c"])
    ∧ objLookup
        (fetchRequestArgs 0
          [⟨"status", "a,b,,c", "select-multiple"⟩,
            ⟨"q", "abc", "text"⟩]).2 "q" =
        some (FilterValue.scalar "abc")
    ∧ (fetchRequestArgs 0
        [⟨"status", "a,b,,c", "select-multiple"⟩,
          ⟨"q", "abc", "text"⟩]).1 = 0 := by
  have h1 := filter_payload_spec
    [⟨"status", "a,b,,c", "select-multiple"⟩, ⟨"q", "abc", "text"⟩] 0
    ⟨"status", "a,b,,c", "select-multiple"⟩ (by decide) (by decide)
  have h2 := filter_payload_spec
    [⟨"status", "a,b,,c", "select-multiple"⟩, ⟨"q", "abc", "text"⟩] 0
    ⟨"q", "abc", "text"⟩ (by decide) (by decide)
  exact ⟨by decide, h1.1.trans (by decide), h2.1.trans (by decide), h1.2⟩

/-! ### Initial column visibility (`TanstackTable`, part_000 lines 54-60) -/

/-- part_000 lines 55-60: the initial visibility state.
`Object.fromEntries(excludeColumns?.map((item) => [item, false]))` when
an exclude list is supplied, the empty object otherwise
(`Object.fromEntries` assigns the pairs into a fresh object in order). -/
def initialColumnVisibility (excludeColumns : Option (List String)) :
    List (String × Bool) :=
  match excludeColumns with
  | some items =>
      (items.map (fun item => (item, false))).foldl
        (fun obj p => objSet obj p.1 p.2) []
  | none => []

theorem objLookup_visibility_foldl (items : List String) :
    ∀ (acc : List (String × Bool)) (key : String),
      objLookup
        ((items.map (fun item => (item, false))).foldl
          (fun obj p => objSet obj p.1 p.2) acc) key =
        if key ∈ items then some false else objLookup acc key := by
  induction items with
  | nil => intro acc key; simp
  | cons x rest ih =>
      intro acc key
      simp only [List.map_cons, List.foldl_cons, ih, List.mem_cons]
      by_cases hrest : key ∈ rest
      · simp [hrest]
      · rw [objLookup_objSet]
        by_cases hx : key = x
        · simp [hx, hrest]
        · simp [hx, hrest]

/-- Modelled from the spec: the external table-model library (the
black-box row/column model dependency, not part of this repository)
renders a header cell for each column whose visibility entry is not
`false`; absent entries default to visible. -/
def visibleHeaderColumns (visibility : List (String × Bool))
    (columnIds : List String) : List String :=
  columnIds.filter (fun c => (objLookup visibility c).getD true)

/-- C9: the initial column visibility maps exactly the ids named in
`excludeColumns` to `false` and holds no other entry (lookup of any
other id is `none`, hence visible by default), so an excluded id is not
rendered in the header row while the others are. -/
theorem initial_visibility_spec (excludeColumns : List String)
    (colId : String) :
    (colId ∈ excludeColumns →
      objLookup (initialColumnVisibility (some excludeColumns)) colId =
        some false)
    ∧ (colId ∉ excludeColumns →
      objLookup (initialColumnVisibility (some excludeColumns)) colId =
        none)
    ∧ visibleHeaderColumns (initialColumnVisibility (some ["id"]))
        ["id", "name"] = ["name"] := by
  refine ⟨?_, ?_, by decide⟩
  · intro hmem
    rw [initialColumnVisibility, objLookup_visibility_foldl, if_pos hmem]
  · intro hmem
    rw [initialColumnVisibility, objLookup_visibility_foldl, if_neg hmem]
    rfl

theorem initial_visibility_spec_witness :
    ("id" ∈ ["id"])
    ∧ objLookup (initialColumnVisibility (some ["id"])) "id" = some false
    ∧ ("name" ∉ ["id"])
    ∧ objLookup (initialColumnVisibility (some ["id"])) "name" = none
    ∧ visibleHeaderColumns (initialColumnVisibility (some ["id"]))
        ["id", "name"] = ["name"] := by
  have h1 := initial_visibility_spec ["id"] "id"
  have h2 := initial_visibility_spec ["id"] "name"
  exact ⟨by decide, h1.1 (by decide), by decide, h2.2.1 (by decide),
    h1.2.2⟩

/-! ### Pending row action (`TanstackTable`, part_000 lines 33-45, 64-84)

The pending action lives in the `rowAction` state slot; a `useEffect`
keyed on that slot performs the `link` side effect and clears the slot.
-/

/-- The `type` tag of a row action descriptor. -/
inductive RowActionType where
  | link
  | confirmationDialog
  | customDialog
deriving DecidableEq, Repr

/-- The pending row action slot content, as far as the link reaction
inspects it: the type tag, the caller's `onClick` callback — which may
throw, modelled as `Except` — and the target row merged in by the
dispatcher. -/
structure PendingRowAction (TData : Type) where
  type : RowActionType
  onClick : TData → Except String Unit
  row : TData

/-- part_000 lines 64-66: the React state setter of the pending row
action slot; setting a new action replaces any prior one outright. -/
def setRowAction {TData : Type}
    (_prior : Option (PendingRowAction TData))
    (a : PendingRowAction TData) : Option (PendingRowAction TData) :=
  some a

/-- Modelled from the spec: the row-actions cell
(`tanstack-table-row-actions`, a presentational component not under
`src/`) renders one actionable element per action and on selection only
delegates to `setRowAction` with the action and its row; it performs no
side effect of its own. The second component is the list of `onClick`
invocations made by the click handler itself (always empty). -/
def dispatchClick {TData : Type}
    (prior : Option (PendingRowAction TData))
    (a : PendingRowAction TData) :
    Option (PendingRowAction TData) × List TData :=
  (setRowAction prior a, [])

/-- part_000 lines 79-84: the reaction (`useEffect` keyed on
`rowAction`). When the pending action has type `link` it runs
`rowAction.onClick(rowAction.row)` and then `setRowAction(null)`. The
result records the pending slot after the reaction, the escaped
exception if any, and the rows `onClick` was invoked with; a thrown
exception aborts the effect body before the clearing setter statement
runs, so the slot keeps its value in that case. -/
def linkEffectRun {TData : Type}
    (rowAction : Option (PendingRowAction TData)) :
    Option (PendingRowAction TData) × Option String × List TData :=
  match rowAction with
  | none => (none, none, [])
  | some a =>
      if a.type = RowActionType.link then
        match a.onClick a.row with
        | Except.ok _ => (none, none, [a.row])
        | Except.error e => (some a, some e, [a.row])
      else (some a, none, [])

/-- C4 counterexample: the claim quantifies over every `link` action,
but for one whose `onClick` throws, setting it as the pending action and
running the reaction does not return the slot to empty — the reaction
invokes `onClick` once and the escaping exception skips the clear. -/
theorem link_auto_clear_counterexample :
    (dispatchClick none
      (⟨RowActionType.link, fun _ => Except.error "fail", 9⟩ :
        PendingRowAction Nat)).2 = []
    ∧ linkEffectRun
        (dispatchClick none
          (⟨RowActionType.link, fun _ => Except.error "fail", 9⟩ :
            PendingRowAction Nat)).1 =
      (some ⟨RowActionType.link, fun _ => Except.error "fail", 9⟩,
        some "fail", [9])
    ∧ (linkEffectRun
        (dispatchClick none
          (⟨RowActionType.link, fun _ => Except.error "fail", 9⟩ :
            PendingRowAction Nat)).1).1 ≠ none := by
  exact ⟨rfl, rfl, by simp [dispatchClick, setRowAction, linkEffectRun]⟩

/-- C4 amended: for every `link` action whose `onClick` returns
normally, dispatching it performs no side effect inline and the
following reaction cycle invokes its `onClick` exactly once with the
target row and returns the pending slot to empty; when `onClick`
throws, the slot does not return to empty. -/
theorem link_action_auto_clear {TData : Type}
    (prior : Option (PendingRowAction TData))
    (a : PendingRowAction TData) (h1 : a.type = RowActionType.link)
    (h2 : a.onClick a.row = Except.ok ()) :
    (dispatchClick prior a).2 = []
    ∧ linkEffectRun (dispatchClick prior a).1 = (none, none, [a.row]) := by
  refine ⟨rfl, ?_⟩
  simp [dispatchClick, setRowAction, linkEffectRun, h1, h2]

theorem link_action_auto_clear_witness :
    ((⟨RowActionType.link, fun _ => Except.ok (), 5⟩ :
        PendingRowAction Nat).type = RowActionType.link)
    ∧ linkEffectRun
        (dispatchClick none
          (⟨RowActionType.link, fun _ => Except.ok (), 5⟩ :
            PendingRowAction Nat)).1 = (none, none, [5]) := by
  have h := link_action_auto_clear none
    (⟨RowActionType.link, fun _ => Except.ok (), 5⟩ :
      PendingRowAction Nat) rfl rfl
  exact ⟨rfl, h.2⟩

/-- C3 counterexample: a `link` action whose `onClick` throws leaves the
pending-action slot set after the reaction — the clear is skipped, so
the slot is not cleared "regardless of whether the callback returns
normally or throws". -/
theorem pending_action_clear_counterexample :
    linkEffectRun
        (some (⟨RowActionType.link, fun _ => Except.error "boom", 7⟩ :
          PendingRowAction Nat)) =
      (some ⟨RowActionType.link, fun _ => Except.error "boom", 7⟩,
        some "boom", [7])
    ∧ (some (⟨RowActionType.link, fun _ => Except.error "boom", 7⟩ :
        PendingRowAction Nat)) ≠ none := by
  exact ⟨rfl, by simp⟩

/-- C3 amended: the link reaction invokes the callback and clears the
pending slot when the callback returns normally; when the callback
throws, the invocation has happened but the clear is skipped and the
slot remains set while the exception escapes. -/
theorem pending_action_clear_amended {TData : Type}
    (a : PendingRowAction TData) (h1 : a.type = RowActionType.link) :
    (a.onClick a.row = Except.ok () →
      linkEffectRun (some a) = (none, none, [a.row]))
    ∧ (∀ e, a.onClick a.row = Except.error e →
      linkEffectRun (some a) = (some a, some e, [a.row])) := by
  constructor
  · intro h2
    simp [linkEffectRun, h1, h2]
  · intro e h2
    simp [linkEffectRun, h1, h2]

theorem pending_action_clear_amended_witness :
    linkEffectRun
        (some (⟨RowActionType.link, fun _ => Except.ok (), 3⟩ :
          PendingRowAction Nat)) = (none, none, [3]) := by
  have h := pending_action_clear_amended
    (⟨RowActionType.link, fun _ => Except.ok (), 3⟩ :
      PendingRowAction Nat) rfl
  exact h.1 rfl

/-! ### No-results rendering (part_000 lines 139-170, index.tsx lines 238-274) -/

/-- The placeholder row rendered when the row model is empty. -/
structure NoResultsRow where
  colSpan : Nat
  text : String
deriving DecidableEq, Repr

/-- The rendered table body: either the data rows or exactly one
no-results placeholder row. -/
inductive RenderedBody (TData : Type) where
  | dataRows : List TData → RenderedBody TData
  | noResults : NoResultsRow → RenderedBody TData
deriving DecidableEq, Repr

/-- part_000 lines 139-170 (`TanstackTable`): when the row model is
empty the body is one placeholder row with `colSpan` equal to
`columns.length` — the caller's declared columns, not the extended
`tableColumns` — and the text "No data results". -/
def tanstackTableBody {TData : Type} (rows : List TData)
    (columns : List ColumnDef) : RenderedBody TData :=
  if rows.length ≠ 0 then RenderedBody.dataRows rows
  else RenderedBody.noResults ⟨columns.length, "No data results"⟩

/-- index.tsx lines 238-274 (`DataTable`): when the row model is empty
the body is one placeholder row with `colSpan` equal to
`columns.length + 1` and the text "No results."; the
`renderSubComponent` prop (whose presence enables row expansion) does
not occur in the placeholder branch. -/
def dataTableBody {TData : Type} (rows : List TData)
    (columns : List ColumnDef) (_hasRenderSubComponent : Bool) :
    RenderedBody TData :=
  if rows.length ≠ 0 then RenderedBody.dataRows rows
  else RenderedBody.noResults ⟨columns.length + 1, "No results."⟩

/-- A concrete declared column list of length 3. -/
def threeColumns : List ColumnDef :=
  [⟨"a", CellRenderer.custom 0⟩, ⟨"b", CellRenderer.custom 1⟩,
    ⟨"c", CellRenderer.custom 2⟩]

/-- C1 counterexample: with 3 declared columns, no expansion and an
empty data sequence, the auto-generated variant (`DataTable`) renders
its placeholder row with `colSpan` 4, not 3 as the claim states. -/
theorem no_results_colspan_counterexample :
    dataTableBody ([] : List RowData) threeColumns false =
      RenderedBody.noResults ⟨3 + 1, "No results."⟩
    ∧ dataTableBody ([] : List RowData) threeColumns false ≠
      RenderedBody.noResults ⟨3, "No results."⟩
    ∧ threeColumns.length = 3 := by
  decide

/-- C1 amended: on an empty data sequence both variants render exactly
one placeholder row; the simple variant spans exactly the declared
column count with the text "No data results", while the auto-generated
variant spans the declared column count plus 1 unconditionally —
independent of the expansion prop — with the text "No results.". -/
theorem no_results_rendering_amended {TData : Type}
    (columns : List ColumnDef) (b : Bool) :
    tanstackTableBody ([] : List TData) columns =
      RenderedBody.noResults ⟨columns.length, "No data results"⟩
    ∧ dataTableBody ([] : List TData) columns b =
      RenderedBody.noResults ⟨columns.length + 1, "No results."⟩
    ∧ dataTableBody ([] : List TData) columns true =
      dataTableBody ([] : List TData) columns false := by
  exact ⟨rfl, rfl, rfl⟩

/-! ### Loading snapshot and the data-update notification
(index.tsx lines 102-113)

The first effect stores `loadingSnapshot isLoading data` in `tableData`;
the second effect, keyed on `tableData`, runs `onDataUpdate?.(tableData)`
whenever the snapshot changed. React keys the second effect on the
state's identity; a change of the snapshot value is modelled
structurally, which under-approximates the notifications (every
structural change is an identity change). -/

/-- One reaction to a change of the `isLoading`/`data` props, returning
the new `tableData` snapshot and the log of `onDataUpdate` invocation
arguments. -/
def propsChangeStep (isLoading : Bool) (data : List RowData)
    (tableData : List RowData) (updateLog : List (List RowData)) :
    List RowData × List (List RowData) :=
  let newData := loadingSnapshot isLoading data
  if newData ≠ tableData then (newData, updateLog ++ [newData])
  else (tableData, updateLog)

/-- C2 counterexample: when a load starts over a real one-row snapshot,
the snapshot becomes the 6-row placeholder and `onDataUpdate` is invoked
with exactly that placeholder sequence — the claim that the placeholder
is never passed to `onDataUpdate` fails. -/
theorem placeholder_notification_counterexample :
    (propsChangeStep true [sampleRow 1] [sampleRow 1] []).1 =
      List.replicate 6 emptyRow
    ∧ (propsChangeStep true [sampleRow 1] [sampleRow 1] []).2 =
      [List.replicate 6 emptyRow] := by
  decide

/-- C2 amended: while a load is in flight the internal snapshot is the
fixed-length-6 sequence of empty placeholder rows used to drive skeleton
rendering; however the placeholder is passed to `onDataUpdate` like any
other snapshot change — whenever the snapshot changes to the
placeholder, `onDataUpdate` is invoked with it. -/
theorem loading_snapshot_notification_amended (data tableData : List RowData)
    (updateLog : List (List RowData))
    (h : tableData ≠ List.replicate 6 emptyRow) :
    (propsChangeStep true data tableData updateLog).1 =
      List.replicate 6 emptyRow
    ∧ (propsChangeStep true data tableData updateLog).2 =
      updateLog ++ [List.replicate 6 emptyRow] := by
  have hcond : loadingSnapshot true data ≠ tableData := by
    intro hh
    exact h hh.symm
  simp only [propsChangeStep]
  rw [if_pos hcond]
  exact ⟨rfl, rfl⟩

theorem loading_snapshot_notification_amended_witness :
    (([sampleRow 2] : List RowData) ≠ List.replicate 6 emptyRow)
    ∧ (propsChangeStep true [] [sampleRow 2] []).1 =
      List.replicate 6 emptyRow
    ∧ (propsChangeStep true [] [sampleRow 2] []).2 =
      [List.replicate 6 emptyRow] := by
  have h := loading_snapshot_notification_amended [] [sampleRow 2] []
    (by decide)
  exact ⟨by decide, h.1, h.2⟩

end AyaTables
